import Mathlib

/-!
Verification development for the Algerian pharmaceutical label classifier
(`ClassificateurMedicamentsAlgerien` in `Classifier/reberta_med_classification.py`).

The classifier is a cascade of regular-expression extractors over OCR text.
We embed it shallowly: text is `List Char`; the Python `re` calls are executed
by a small backtracking engine (`executer`) with Python search semantics
(leftmost match position, ordered alternation, greedy and lazy quantifiers,
capture groups, word boundaries); each pattern of the source is transcribed
into the engine's syntax; the control flow of `analyser_format_algerian`
(strategy cascades, exclusion checks, first-match-wins loops) is translated
function by function.

Modelling notes, fixed once here:
* Python iterates `set` literals in an unspecified order; the embedding uses
  the literal order of the source file.  Every theorem below is robust to
  that choice (its input either makes a single entry match, or it is
  conditioned on the other entries not matching).
* The character classes `\s` (which coincides with the set stripped by
  `str.strip`) is modelled exactly; `\w`, `str.upper` and `str.lower` are
  modelled on ASCII plus the Latin-1 letters that occur in the source's
  alphabet (accented French letters, the micro sign).  All concrete inputs
  used in theorems stay inside that alphabet.
-/

namespace PharmaLense

abbrev Str := List Char

/-- Conversion from a Lean string literal to the working representation. -/
def ch (s : String) : Str := s.data

/-- Characters matched by the Python regex class backslash-s; the set of
characters removed by Python `str.strip()` is the same. -/
def estEspace (c : Char) : Bool :=
  let n := c.toNat
  (9 ≤ n && n ≤ 13) || (28 ≤ n && n ≤ 32) || n == 0x85 || n == 0xa0 ||
  n == 0x1680 || (0x2000 ≤ n && n ≤ 0x200a) || n == 0x2028 || n == 0x2029 ||
  n == 0x202f || n == 0x205f || n == 0x3000

/-- Word characters for the boundary assertion, over ASCII plus the Latin-1
letters and the micro sign (the alphabet of the source's patterns). -/
def estMotChar (c : Char) : Bool :=
  let n := c.toNat
  (97 ≤ n && n ≤ 122) || (65 ≤ n && n ≤ 90) || (48 ≤ n && n ≤ 57) ||
  n == 95 || n == 0xb5 ||
  (0xc0 ≤ n && n ≤ 0xff && n != 0xd7 && n != 0xf7)

/-- Python `str.upper` restricted to one character, over ASCII and Latin-1. -/
def pyMaj (c : Char) : Char :=
  let n := c.toNat
  if 97 ≤ n && n ≤ 122 then Char.ofNat (n - 32)
  else if n == 0xb5 then Char.ofNat 0x39c
  else if n == 0xff then Char.ofNat 0x178
  else if 0xe0 ≤ n && n ≤ 0xfe && n != 0xf7 then Char.ofNat (n - 32)
  else c

/-- Python `str.lower` restricted to one character, over ASCII and Latin-1. -/
def pyMin (c : Char) : Char :=
  let n := c.toNat
  if 65 ≤ n && n ≤ 90 then Char.ofNat (n + 32)
  else if n == 0x39c then Char.ofNat 0x3bc
  else if n == 0x178 then Char.ofNat 0xff
  else if 0xc0 ≤ n && n ≤ 0xde && n != 0xd7 then Char.ofNat (n + 32)
  else c

def pyMajStr (l : Str) : Str := l.map pyMaj

def pyMinStr (l : Str) : Str := l.map pyMin

/-- Python `str.strip()`: drop whitespace from both ends. -/
def pyStrip (l : Str) : Str :=
  ((l.dropWhile estEspace).reverse.dropWhile estEspace).reverse

/-- The substitution `re.sub(r'\s+', ' ', t)`: every maximal whitespace run
becomes a single ASCII space.  The boolean state records whether the previous
character belonged to a run already replaced. -/
def remplacerEspacesAux : Bool → Str → Str
  | _, [] => []
  | enCours, c :: r =>
    if estEspace c then
      if enCours then remplacerEspacesAux true r
      else ' ' :: remplacerEspacesAux true r
    else c :: remplacerEspacesAux false r

def reduireEspaces (l : Str) : Str := remplacerEspacesAux false l

/-- The normalizer `normaliser_texte`: collapse whitespace runs, then strip. -/
def normaliser_texte (t : Str) : Str := pyStrip (reduireEspaces t)

/-- The substitution `re.sub(r'\s+', '', x)` used on dosage tokens. -/
def sansEspaces (l : Str) : Str := l.filter fun c => !(estEspace c)

def prefixeDe : Str → Str → Bool
  | [], _ => true
  | _ :: _, [] => false
  | a :: s, b :: t => a == b && prefixeDe s t

/-- Occurrence of `n` as a contiguous substring of `h`. -/
def sousChaine (n h : Str) : Bool :=
  (List.range (h.length + 1)).any fun i => prefixeDe n (h.drop i)

def dansListe (l : List Str) (x : Str) : Bool := l.any fun y => y == x

/-! ## Regex engine

A backtracking matcher with Python `re` semantics: alternatives are tried in
written order, `etoile false` (greedy star) prefers consuming, `etoile true`
(lazy star) prefers stopping, the first successful branch wins, and capture
groups record the characters their subpattern consumed.  `re.search` is
realised by trying each start position from the left (`chercherDepuis`).
The fuel argument bounds only the depth of one backtracking branch (sibling
alternatives receive the same fuel), and `carburant` is far above the depth
any pattern of the source can reach on its input, so fuel exhaustion never
occurs in the developments below. -/

inductive RE where
  | vide : RE
  | cls (p : Char → Bool) : RE
  | seq (a b : RE) : RE
  | alt (a b : RE) : RE
  | etoile (paresseux : Bool) (a : RE) : RE
  | grp (i : Nat) (a : RE) : RE
  | frontiere : RE
  | finTexte : RE

inductive Cadre where
  | re (r : RE) : Cadre
  | fermer (i : Nat) : Cadre

/-- The boundary assertion: word-ness differs across the current position. -/
def estFrontiere (avantMot : Bool) (reste : Str) : Bool :=
  let apresMot := match reste with
    | [] => false
    | c :: _ => estMotChar c
  avantMot != apresMot

/-- One backtracking run: match the concatenation of the frame stack against
`reste`.  `avantMot` records whether the character before the current
position is a word character; `ouverts` holds the capture groups currently
open (with their content reversed); `fermes` the groups already closed.
Returns the suffix after the match, the word-ness of the last consumed
character, and the closed groups. -/
def executer : Nat → List Cadre → Str → Bool → List (Nat × Str) → List (Nat × Str) →
    Option (Str × Bool × List (Nat × Str))
  | 0, _, _, _, _, _ => none
  | Nat.succ fuel, cadres, reste, avantMot, ouverts, fermes =>
    match cadres with
    | [] => some (reste, avantMot, fermes)
    | Cadre.fermer i :: k =>
      match ouverts with
      | [] => none
      | (_, tampon) :: o => executer fuel k reste avantMot o ((i, tampon.reverse) :: fermes)
    | Cadre.re r :: k =>
      match r with
      | RE.vide => executer fuel k reste avantMot ouverts fermes
      | RE.cls p =>
        match reste with
        | [] => none
        | c :: r2 =>
          if p c then
            executer fuel k r2 (estMotChar c) (ouverts.map fun g => (g.1, c :: g.2)) fermes
          else none
      | RE.seq a b => executer fuel (Cadre.re a :: Cadre.re b :: k) reste avantMot ouverts fermes
      | RE.alt a b =>
        (executer fuel (Cadre.re a :: k) reste avantMot ouverts fermes) <|>
        (executer fuel (Cadre.re b :: k) reste avantMot ouverts fermes)
      | RE.etoile paresseux a =>
        if paresseux then
          (executer fuel k reste avantMot ouverts fermes) <|>
          (executer fuel (Cadre.re a :: Cadre.re (RE.etoile true a) :: k) reste avantMot ouverts fermes)
        else
          (executer fuel (Cadre.re a :: Cadre.re (RE.etoile false a) :: k) reste avantMot ouverts fermes) <|>
          (executer fuel k reste avantMot ouverts fermes)
      | RE.grp i a =>
        executer fuel (Cadre.re a :: Cadre.fermer i :: k) reste avantMot ((i, []) :: ouverts) fermes
      | RE.frontiere =>
        if estFrontiere avantMot reste then executer fuel k reste avantMot ouverts fermes else none
      | RE.finTexte =>
        match reste with
        | [] => executer fuel k reste avantMot ouverts fermes
        | ['\n'] => executer fuel k reste avantMot ouverts fermes
        | _ => none

def carburant (reste : Str) : Nat := 2000 + 200 * reste.length

structure Resultat where
  resteApres : Str
  motApres : Bool
  groupes : List (Nat × Str)

/-- The body of `re.search`: try a full match at the current position, else
advance one character (tracking word-ness for the boundary assertion). -/
def chercherDepuis (r : RE) : Str → Bool → Option Resultat
  | reste, avantMot =>
    match executer (carburant reste) [Cadre.re r] reste avantMot [] [] with
    | some (r2, m2, gs) => some ⟨r2, m2, gs⟩
    | none =>
      match reste with
      | [] => none
      | c :: r2 => chercherDepuis r r2 (estMotChar c)

/-- `re.search(motif, t)`: leftmost match, if any. -/
def chercher (r : RE) (t : Str) : Option Resultat := chercherDepuis r t false

/-- Captured content of group `i` of a match. -/
def groupe (res : Resultat) (i : Nat) : Option Str :=
  (res.groupes.find? fun g => g.1 == i).map fun g => g.2

/-- `re.findall` for a pattern with one capture group: repeated search, each
next scan starting where the previous non-empty match ended.  (Every pattern
the source uses with `findall` matches at least one character.) -/
def toutTrouverAux : Nat → RE → Str → Bool → List Str
  | 0, _, _, _ => []
  | Nat.succ fuel, r, reste, avantMot =>
    match chercherDepuis r reste avantMot with
    | none => []
    | some res =>
      match groupe res 1 with
      | none => []
      | some g => g :: toutTrouverAux fuel r res.resteApres res.motApres

def toutTrouver (r : RE) (t : Str) : List Str := toutTrouverAux (t.length + 1) r t false

/-! ### Pattern constructors mirroring the regex syntax -/

def lit1 (c : Char) : RE := RE.cls fun d => d == c

/-- A case-sensitive literal. -/
def litS : Str → RE
  | [] => RE.vide
  | c :: r => RE.seq (lit1 c) (litS r)

/-- One character of a literal under `re.IGNORECASE`. -/
def sansCasse1 (c : Char) : RE := RE.cls fun d => pyMin d == pyMin c

/-- A literal under `re.IGNORECASE`. -/
def litSC : Str → RE
  | [] => RE.vide
  | c :: r => RE.seq (sansCasse1 c) (litSC r)

def seqL : List RE → RE
  | [] => RE.vide
  | [r] => r
  | r :: l => RE.seq r (seqL l)

def altL : List RE → RE
  | [] => RE.vide
  | [r] => r
  | r :: l => RE.alt r (altL l)

/-- Greedy `+`. -/
def plusG (a : RE) : RE := RE.seq a (RE.etoile false a)

/-- Lazy `+?`. -/
def plusP (a : RE) : RE := RE.seq a (RE.etoile true a)

/-- Greedy `?`. -/
def optG (a : RE) : RE := RE.alt a RE.vide

/-- Greedy `*`. -/
def etoileG (a : RE) : RE := RE.etoile false a

/-- Greedy interval `{1,2}`: two repetitions preferred. -/
def rep12G (a : RE) : RE := RE.alt (RE.seq a a) a

/-- Greedy interval `{2,4}`: four, then three, then two repetitions. -/
def rep24G (a : RE) : RE :=
  RE.alt (RE.seq a (RE.seq a (RE.seq a a))) (RE.alt (RE.seq a (RE.seq a a)) (RE.seq a a))

/-- Greedy interval `{3,}`. -/
def rep3plusG (a : RE) : RE := RE.seq a (RE.seq a (RE.seq a (RE.etoile false a)))

/-! ### Character classes of the source's patterns -/

def estChiffre (c : Char) : Bool := 48 ≤ c.toNat && c.toNat ≤ 57

def estMajAscii (c : Char) : Bool := 65 ≤ c.toNat && c.toNat ≤ 90

def estMinAscii (c : Char) : Bool := 97 ≤ c.toNat && c.toNat ≤ 122

def estLettreAscii (c : Char) : Bool := estMajAscii c || estMinAscii c

def estAccMin (c : Char) : Bool :=
  c == 'é' || c == 'è' || c == 'ê' || c == 'à' || c == 'ç'

def estAccMaj (c : Char) : Bool :=
  c == 'É' || c == 'È' || c == 'Ê' || c == 'À' || c == 'Ç'

def rEsp : RE := RE.cls estEspace

def rChiffre : RE := RE.cls estChiffre

/-- `[A-Z]` without flags. -/
def rMaj : RE := RE.cls estMajAscii

/-- `[A-Z]` under IGNORECASE. -/
def rLettre : RE := RE.cls estLettreAscii

/-- `[A-Z\s&\.]` under IGNORECASE. -/
def rMajEspAmpPointCI : RE := RE.cls fun c => estLettreAscii c || estEspace c || c == '&' || c == '.'

/-- `[A-Z\.&LP]` without flags (`L` and `P` are redundant members). -/
def rMajPointAmp : RE := RE.cls fun c => estMajAscii c || c == '.' || c == '&'

/-- `[a-zéèêàç]` without flags. -/
def rMinAcc : RE := RE.cls fun c => estMinAscii c || estAccMin c

/-- `[a-zéèêàç\s]` under IGNORECASE. -/
def rMinAccEspCI : RE := RE.cls fun c => estLettreAscii c || estAccMin c || estAccMaj c || estEspace c

/-- `[A-Za-zéèêàç]` under IGNORECASE. -/
def rLettreAccCI : RE := RE.cls fun c => estLettreAscii c || estAccMin c || estAccMaj c

/-- `[-\s]`. -/
def rTiretEsp : RE := RE.cls fun c => c == '-' || estEspace c

/-- `[–-]` (en dash or hyphen). -/
def rTiretLong : RE := RE.cls fun c => c == '–' || c == '-'

/-- `[BbEe]`. -/
def rBbEe : RE := RE.cls fun c => c == 'B' || c == 'b' || c == 'E' || c == 'e'

/-- `[iî]` under IGNORECASE. -/
def rIiCirc : RE := RE.cls fun c => c == 'i' || c == 'I' || c == 'î' || c == 'Î'

/-- `[n°:]` under IGNORECASE. -/
def rNdegCol : RE := RE.cls fun c => c == 'n' || c == 'N' || c == '°' || c == ':'

/-- `[n°]` under IGNORECASE. -/
def rNdeg : RE := RE.cls fun c => c == 'n' || c == 'N' || c == '°'

/-- `[B:]` under IGNORECASE. -/
def rBCol : RE := RE.cls fun c => c == 'B' || c == 'b' || c == ':'

/-- `[=:]`. -/
def rEgCol : RE := RE.cls fun c => c == '=' || c == ':'

/-- `[=:+]`. -/
def rEgColPlus : RE := RE.cls fun c => c == '=' || c == ':' || c == '+'

/-- `[A-Z0-9]` under IGNORECASE. -/
def rAlnum : RE := RE.cls fun c => estLettreAscii c || estChiffre c

/-- `[A-Z0-9\s/]` under IGNORECASE. -/
def rAlnumEspSlash : RE := RE.cls fun c => estLettreAscii c || estChiffre c || estEspace c || c == '/'

/-- `[A-Z0-9\s]` under IGNORECASE. -/
def rAlnumEsp : RE := RE.cls fun c => estLettreAscii c || estChiffre c || estEspace c

/-- `[\d/A-Z\s]` under IGNORECASE. -/
def rChiffreSlashLettreEsp : RE :=
  RE.cls fun c => estChiffre c || c == '/' || estLettreAscii c || estEspace c

/-- The dash-or-slash class of the date patterns. -/
def rTiretSlash : RE := RE.cls fun c => c == '-' || c == '/'

/-- `[OI]` under IGNORECASE. -/
def rOI : RE := RE.cls fun c => c == 'O' || c == 'o' || c == 'I' || c == 'i'

/-! ### Transcribed patterns

Each definition transcribes one regex string of
`analyser_format_algerian`, with the flag it is searched with. -/

/-- `\d+(?:\.\d+)?` — a decimal number. -/
def rNombre : RE := seqL [plusG rChiffre, optG (RE.seq (lit1 '.') (plusG rChiffre))]

/-- Strategy 1 of the medication name (IGNORECASE), parameterised by the
detected manufacturer:
`{e}[-\s]+([A-Z][A-Z\s&\.]+?)(?:\s+\d+(?:\.\d+)?(?:mg|g|%)|(?:\s+-\s+)|(?:\s+L\.?P\.?))`. -/
def motifNomS1 (e : Str) : RE :=
  seqL [litSC e, plusG rTiretEsp,
    RE.grp 1 (RE.seq rLettre (plusP rMajEspAmpPointCI)),
    altL [seqL [plusG rEsp, rNombre, altL [litSC (ch "mg"), litSC (ch "g"), lit1 '%']],
          seqL [plusG rEsp, lit1 '-', plusG rEsp],
          seqL [plusG rEsp, sansCasse1 'L', optG (lit1 '.'), sansCasse1 'P', optG (lit1 '.')]]]

/-- Strategy 2 of the medication name (no flags):
`\b([A-Z][A-Z]+(?:\s+[A-Z\.&LP]+)*)\s+\d+(?:\.\d+)?(?:mg|g|%)`. -/
def motifNomS2 : RE :=
  seqL [RE.frontiere,
    RE.grp 1 (seqL [rMaj, plusG rMaj, etoileG (RE.seq (plusG rEsp) (plusG rMajPointAmp))]),
    plusG rEsp, rNombre, altL [litS (ch "mg"), litS (ch "g"), lit1 '%']]

/-- Strategy 3 of the medication name (no flags):
`\d+(?:\.\d+)?\s*(?:mg|g|%|ml)\s+([A-Z][A-Z]+(?:\s+[A-Z\.&LP]+)*)`. -/
def motifNomS3 : RE :=
  seqL [rNombre, etoileG rEsp, altL [litS (ch "mg"), litS (ch "g"), lit1 '%', litS (ch "ml")],
    plusG rEsp,
    RE.grp 1 (seqL [rMaj, plusG rMaj, etoileG (RE.seq (plusG rEsp) (plusG rMajPointAmp))])]

/-- Strategy 4 of the medication name (no flags):
`-\s+([A-Z]{3,}(?:\s+[A-Z\.&LP]+)*)\s*$`. -/
def motifNomS4 : RE :=
  seqL [lit1 '-', plusG rEsp,
    RE.grp 1 (seqL [rep3plusG rMaj, etoileG (RE.seq (plusG rEsp) (plusG rMajPointAmp))]),
    etoileG rEsp, RE.finTexte]

/-- Strategy 5 of the medication name (no flags, `findall`):
`\b([A-Z]{3,}(?:\s+[A-Z\.&LP]+)*)\b`. -/
def motifNomS5 : RE :=
  seqL [RE.frontiere,
    RE.grp 1 (seqL [rep3plusG rMaj, etoileG (RE.seq (plusG rEsp) (plusG rMajPointAmp))]),
    RE.frontiere]

/-- Strategy 1 of the active ingredient (no flags, `findall`):
`-\s+([A-Z][a-zéèêàç]+(?:\s+[A-Z]?[a-zéèêàç]+)*)\s+-`. -/
def motifPrincipe1 : RE :=
  seqL [lit1 '-', plusG rEsp,
    RE.grp 1 (seqL [rMaj, plusG rMinAcc,
      etoileG (seqL [plusG rEsp, optG rMaj, plusG rMinAcc])]),
    plusG rEsp, lit1 '-']

/-- Strategy 2 of the active ingredient (IGNORECASE):
`\d+(?:\.\d+)?\s*(?:mg|g|%|ml)\s*[–-]\s*([a-zéèêàç\s]+(?:sodique|chlorhydrate|sulfate|phosphate|base|acide))`. -/
def motifPrincipe2 : RE :=
  seqL [rNombre, etoileG rEsp,
    altL [litSC (ch "mg"), litSC (ch "g"), lit1 '%', litSC (ch "ml")],
    etoileG rEsp, rTiretLong, etoileG rEsp,
    RE.grp 1 (RE.seq (plusG rMinAccEspCI)
      (altL [litSC (ch "sodique"), litSC (ch "chlorhydrate"), litSC (ch "sulfate"),
             litSC (ch "phosphate"), litSC (ch "base"), litSC (ch "acide")]))]

/-- Strategy 3 of the active ingredient (no flags):
`\d+(?:\.\d+)?\s*(?:mg|g|%|ml)\s+([A-Z][A-Z]+)`. -/
def motifPrincipe3 : RE :=
  seqL [rNombre, etoileG rEsp, altL [litS (ch "mg"), litS (ch "g"), lit1 '%', litS (ch "ml")],
    plusG rEsp, RE.grp 1 (RE.seq rMaj (plusG rMaj))]

/-- Strategy 4 of the active ingredient (no flags, `findall`):
`\b([A-Z][a-zéèêàç]+(?:\s+[a-zéèêàç]+)?)\b`. -/
def motifPrincipe4 : RE :=
  seqL [RE.frontiere,
    RE.grp 1 (seqL [rMaj, plusG rMinAcc, optG (RE.seq (plusG rEsp) (plusG rMinAcc))]),
    RE.frontiere]

/-- `\b(\d+(?:\.\d+)?\s*mg(?:/\d+(?:\.\d+)?mg)?)\b` (IGNORECASE). -/
def motifDosageMg : RE :=
  seqL [RE.frontiere,
    RE.grp 1 (seqL [rNombre, etoileG rEsp, litSC (ch "mg"),
      optG (seqL [lit1 '/', rNombre, litSC (ch "mg")])]),
    RE.frontiere]

/-- `\b(\d+(?:\.\d+)?\s*{u})\b` (IGNORECASE) for a unit tail `u`. -/
def motifDosageUnite (u : RE) : RE :=
  seqL [RE.frontiere, RE.grp 1 (seqL [rNombre, etoileG rEsp, u]), RE.frontiere]

/-- The six dosage patterns, in the source's order. -/
def motifsDosage : List RE :=
  [motifDosageMg,
   motifDosageUnite (litSC (ch "g")),
   motifDosageUnite (litSC (ch "ml")),
   motifDosageUnite (lit1 '%'),
   motifDosageUnite (litSC (ch "mcg")),
   motifDosageUnite (litSC (ch "µg"))]

/-- `([A-Za-zéèêàç]+)\s*/?\s*[BbEe]/?(\d+)` (IGNORECASE). -/
def motifForme1 : RE :=
  seqL [RE.grp 1 (plusG rLettreAccCI), etoileG rEsp, optG (lit1 '/'), etoileG rEsp,
    rBbEe, optG (lit1 '/'), RE.grp 2 (plusG rChiffre)]

/-- `[Bb]o[iî]te\s+de\s+(\d+)\s+([A-Za-zéèêàç]+)` (IGNORECASE). -/
def motifForme2 : RE :=
  seqL [sansCasse1 'b', sansCasse1 'o', rIiCirc, litSC (ch "te"), plusG rEsp,
    litSC (ch "de"), plusG rEsp, RE.grp 1 (plusG rChiffre), plusG rEsp,
    RE.grp 2 (plusG rLettreAccCI)]

/-- `([A-Za-zéèêàç]+)\s+boîte\s+de\s+(\d+)` (IGNORECASE). -/
def motifForme3 : RE :=
  seqL [RE.grp 1 (plusG rLettreAccCI), plusG rEsp, litSC (ch "boîte"), plusG rEsp,
    litSC (ch "de"), plusG rEsp, RE.grp 2 (plusG rChiffre)]

/-- `[BbEe]/?(\d+)\s+([A-Za-zéèêàç]+)` (IGNORECASE). -/
def motifForme4 : RE :=
  seqL [rBbEe, optG (lit1 '/'), RE.grp 1 (plusG rChiffre), plusG rEsp,
    RE.grp 2 (plusG rLettreAccCI)]

/-- `\b({f})\b` (IGNORECASE): a lexicon word standing alone. -/
def motifMotEntier (f : Str) : RE :=
  seqL [RE.frontiere, RE.grp 1 (litSC f), RE.frontiere]

/-- `LOT\s*[n°:]*\s*:?\s*([A-Z0-9]+(?:\s*/?\s*\d+)?)` (IGNORECASE). -/
def motifLot1 : RE :=
  seqL [litSC (ch "LOT"), etoileG rEsp, etoileG rNdegCol, etoileG rEsp, optG (lit1 ':'),
    etoileG rEsp,
    RE.grp 1 (RE.seq (plusG rAlnum)
      (optG (seqL [etoileG rEsp, optG (lit1 '/'), etoileG rEsp, plusG rChiffre])))]

/-- `N°?\s*LOT\s*:?\s*([A-Z0-9\s/]+?)(?:\s+-|\s+FAB|\s+PER|\s+EXP|$)` (IGNORECASE). -/
def motifLot2 : RE :=
  seqL [sansCasse1 'N', optG (lit1 '°'), etoileG rEsp, litSC (ch "LOT"), etoileG rEsp,
    optG (lit1 ':'), etoileG rEsp, RE.grp 1 (plusP rAlnumEspSlash),
    altL [RE.seq (plusG rEsp) (lit1 '-'), RE.seq (plusG rEsp) (litSC (ch "FAB")),
          RE.seq (plusG rEsp) (litSC (ch "PER")), RE.seq (plusG rEsp) (litSC (ch "EXP")),
          RE.finTexte]]

/-- `Lot\s+n°?\s*:?\s*([A-Z0-9\s]+?)(?:\s+-|\s+FAB|$)` (IGNORECASE). -/
def motifLot3 : RE :=
  seqL [litSC (ch "Lot"), plusG rEsp, sansCasse1 'n', optG (lit1 '°'), etoileG rEsp,
    optG (lit1 ':'), etoileG rEsp, RE.grp 1 (plusP rAlnumEsp),
    altL [RE.seq (plusG rEsp) (lit1 '-'), RE.seq (plusG rEsp) (litSC (ch "FAB")),
          RE.finTexte]]

/-- `LOT\s+([A-Z0-9]+)` (IGNORECASE). -/
def motifLot4 : RE := seqL [litSC (ch "LOT"), plusG rEsp, RE.grp 1 (plusG rAlnum)]

def motifsLot : List RE := [motifLot1, motifLot2, motifLot3, motifLot4]

/-- `(\d{1,2}⟨dash or slash⟩\d{2,4})`: the captured date shape of the date patterns. -/
def grpDate : RE := RE.grp 1 (seqL [rep12G rChiffre, rTiretSlash, rep24G rChiffre])

/-- `FAB(?:RICATO?)?\s*[B:]?\s*:?\s*(\d{1,2}⟨dash or slash⟩\d{2,4})` (IGNORECASE). -/
def motifFab1 : RE :=
  seqL [litSC (ch "FAB"), optG (RE.seq (litSC (ch "RICAT")) (optG (sansCasse1 'O'))),
    etoileG rEsp, optG rBCol, etoileG rEsp, optG (lit1 ':'), etoileG rEsp, grpDate]

/-- `Date\s+Fab(?:rication)?\s*:?\s*(\d{1,2}⟨dash or slash⟩\d{2,4})` (IGNORECASE). -/
def motifFab2 : RE :=
  seqL [litSC (ch "Date"), plusG rEsp, litSC (ch "Fab"), optG (litSC (ch "rication")),
    etoileG rEsp, optG (lit1 ':'), etoileG rEsp, grpDate]

/-- `Fab\s*:?\s*(\d{1,2}⟨dash or slash⟩\d{2,4})` (IGNORECASE). -/
def motifFab3 : RE :=
  seqL [litSC (ch "Fab"), etoileG rEsp, optG (lit1 ':'), etoileG rEsp, grpDate]

/-- `FAB\s+(\d{2}-\d{4})` (IGNORECASE). -/
def motifFab4 : RE :=
  seqL [litSC (ch "FAB"), plusG rEsp,
    RE.grp 1 (seqL [rChiffre, rChiffre, lit1 '-', rChiffre, rChiffre, rChiffre, rChiffre])]

/-- `FAB\s+(\d{2}-\d{2})` (IGNORECASE). -/
def motifFab5 : RE :=
  seqL [litSC (ch "FAB"), plusG rEsp,
    RE.grp 1 (seqL [rChiffre, rChiffre, lit1 '-', rChiffre, rChiffre])]

/-- `\bFAB\s+(\d{2}/\d{4})` (IGNORECASE). -/
def motifFab6 : RE :=
  seqL [RE.frontiere, litSC (ch "FAB"), plusG rEsp,
    RE.grp 1 (seqL [rChiffre, rChiffre, lit1 '/', rChiffre, rChiffre, rChiffre, rChiffre])]

def motifsFab : List RE := [motifFab1, motifFab2, motifFab3, motifFab4, motifFab5, motifFab6]

/-- `(?:PER(?:IOD[OI])?|EXP(?:IRATION)?)\s*:?\s*(\d{1,2}⟨dash or slash⟩\d{2,4})` (IGNORECASE). -/
def motifExp1 : RE :=
  seqL [RE.alt (RE.seq (litSC (ch "PER")) (optG (RE.seq (litSC (ch "IOD")) rOI)))
              (RE.seq (litSC (ch "EXP")) (optG (litSC (ch "IRATION")))),
    etoileG rEsp, optG (lit1 ':'), etoileG rEsp, grpDate]

/-- `Date\s+Exp(?:iration)?\s*:?\s*(\d{1,2}⟨dash or slash⟩\d{2,4})` (IGNORECASE). -/
def motifExp2 : RE :=
  seqL [litSC (ch "Date"), plusG rEsp, litSC (ch "Exp"), optG (litSC (ch "iration")),
    etoileG rEsp, optG (lit1 ':'), etoileG rEsp, grpDate]

/-- `Péremption\s*:?\s*(\d{1,2}⟨dash or slash⟩\d{2,4})` (IGNORECASE). -/
def motifExp3 : RE :=
  seqL [litSC (ch "Péremption"), etoileG rEsp, optG (lit1 ':'), etoileG rEsp, grpDate]

/-- `EXP\s+(\d{2}-\d{4})` (IGNORECASE). -/
def motifExp4 : RE :=
  seqL [litSC (ch "EXP"), plusG rEsp,
    RE.grp 1 (seqL [rChiffre, rChiffre, lit1 '-', rChiffre, rChiffre, rChiffre, rChiffre])]

/-- `EXP:\s*(\d{2}-\d{2})` (IGNORECASE). -/
def motifExp5 : RE :=
  seqL [litSC (ch "EXP"), lit1 ':', etoileG rEsp,
    RE.grp 1 (seqL [rChiffre, rChiffre, lit1 '-', rChiffre, rChiffre])]

/-- `\bEXP\s+(\d{2}/\d{4})` (IGNORECASE). -/
def motifExp6 : RE :=
  seqL [RE.frontiere, litSC (ch "EXP"), plusG rEsp,
    RE.grp 1 (seqL [rChiffre, rChiffre, lit1 '/', rChiffre, rChiffre, rChiffre, rChiffre])]

def motifsExp : List RE := [motifExp1, motifExp2, motifExp3, motifExp4, motifExp5, motifExp6]

/-- `(\d+(?:\.\d+)?)`: the captured amount of the price patterns. -/
def grpMontant : RE := RE.grp 1 rNombre

/-- The nine price patterns (IGNORECASE), in the source's order:
`TR\s*[=:]\s*(\d+(?:\.\d+)?)\s*DA`, `T\.R\s*[=:]\s*(…)\s*DA`,
`Tarif\s+de\s+Réf?(?:érence)?\s*[=:]\s*(…)\s*DA`, `PPA\s*[=:+]?\s*(…)\s*DA`,
`Prix\s*[+]?\s*SHP\s*[=:]\s*(…)`, `PRIX\s*[=:]\s*(…)`, `PRIX\s+(…)DA`,
`TR\s+(…)DA`, `T\.R\s+(…)DA`. -/
def motifsPrix : List RE :=
  [seqL [litSC (ch "TR"), etoileG rEsp, rEgCol, etoileG rEsp, grpMontant, etoileG rEsp,
     litSC (ch "DA")],
   seqL [sansCasse1 'T', lit1 '.', sansCasse1 'R', etoileG rEsp, rEgCol, etoileG rEsp,
     grpMontant, etoileG rEsp, litSC (ch "DA")],
   seqL [litSC (ch "Tarif"), plusG rEsp, litSC (ch "de"), plusG rEsp, litSC (ch "Ré"),
     optG (sansCasse1 'f'), optG (litSC (ch "érence")), etoileG rEsp, rEgCol, etoileG rEsp,
     grpMontant, etoileG rEsp, litSC (ch "DA")],
   seqL [litSC (ch "PPA"), etoileG rEsp, optG rEgColPlus, etoileG rEsp, grpMontant,
     etoileG rEsp, litSC (ch "DA")],
   seqL [litSC (ch "Prix"), etoileG rEsp, optG (lit1 '+'), etoileG rEsp, litSC (ch "SHP"),
     etoileG rEsp, rEgCol, etoileG rEsp, grpMontant],
   seqL [litSC (ch "PRIX"), etoileG rEsp, rEgCol, etoileG rEsp, grpMontant],
   seqL [litSC (ch "PRIX"), plusG rEsp, grpMontant, litSC (ch "DA")],
   seqL [litSC (ch "TR"), plusG rEsp, grpMontant, litSC (ch "DA")],
   seqL [sansCasse1 'T', lit1 '.', sansCasse1 'R', plusG rEsp, grpMontant, litSC (ch "DA")]]

/-- `D\.?E\s*[n°]*\s*:?\s*([\d/A-Z\s]+?)(?:\s+-|\s+LOT|\s+FAB|\s+\d{4}/\d{4}|$)`
(IGNORECASE). -/
def motifDE1 : RE :=
  seqL [sansCasse1 'D', optG (lit1 '.'), sansCasse1 'E', etoileG rEsp, etoileG rNdeg,
    etoileG rEsp, optG (lit1 ':'), etoileG rEsp, RE.grp 1 (plusP rChiffreSlashLettreEsp),
    altL [RE.seq (plusG rEsp) (lit1 '-'), RE.seq (plusG rEsp) (litSC (ch "LOT")),
          RE.seq (plusG rEsp) (litSC (ch "FAB")),
          seqL [plusG rEsp, rChiffre, rChiffre, rChiffre, rChiffre, lit1 '/',
                rChiffre, rChiffre, rChiffre, rChiffre],
          RE.finTexte]]

/-- `N°\s*D\.?E\s*:?\s*([\d/A-Z\s]+?)(?:\s+-|$)` (IGNORECASE). -/
def motifDE2 : RE :=
  seqL [sansCasse1 'N', lit1 '°', etoileG rEsp, sansCasse1 'D', optG (lit1 '.'),
    sansCasse1 'E', etoileG rEsp, optG (lit1 ':'), etoileG rEsp,
    RE.grp 1 (plusP rChiffreSlashLettreEsp),
    altL [RE.seq (plusG rEsp) (lit1 '-'), RE.finTexte]]

def motifsDE : List RE := [motifDE1, motifDE2]

/-! ## Reference data (in the literal order of the source) -/

def entreprises_algeriennes : List Str :=
  [ch "SAIDAL", ch "BIOCARE", ch "BIOPHARM", ch "HIKMA", ch "PFIZER",
   ch "SANOFI", ch "BAYER", ch "NOVARTIS", ch "GSK", ch "GLAXOSMITHKLINE",
   ch "BIOGALENIC", ch "NADPHARMA", ch "NADPHARMAGIC", ch "VIGNETTE"]

def formes_pharmaceutiques : List Str :=
  [ch "comprimés", ch "comprimé", ch "comprimée", ch "gélules", ch "gélule",
   ch "sirop", ch "solution", ch "suspension", ch "crème", ch "pommade",
   ch "gel", ch "injection", ch "suppositoires", ch "suppositoire",
   ch "sachets", ch "sachet", ch "unidoses", ch "quadrispersible",
   ch "collyre", ch "gouttes"]

def mots_cles_principes : List Str :=
  [ch "sodique", ch "chlorhydrate", ch "sulfate", ch "phosphate", ch "base",
   ch "acide", ch "sel", ch "ester", ch "sodium", ch "potassium"]

/-- The hard-coded exclusion list of name strategies 3 to 5:
`['VIGNETTE', 'PRIX', 'LOT', 'FAB', 'EXP', 'PER']`. -/
def motsExclusion : List Str :=
  [ch "VIGNETTE", ch "PRIX", ch "LOT", ch "FAB", ch "EXP", ch "PER"]

/-! ## Manufacturer detection

The four per-company patterns are simple enough to implement directly by
position scans (for a boolean `re.search` the backtracking order is
irrelevant: only the existence of a match matters).  This direct form also
yields the substring lemmas used for claim C10. -/

/-- Word-character status of the character at position `i` (`false` outside). -/
def motEn (t : Str) (i : Nat) : Bool :=
  match t.get? i with
  | some c => estMotChar c
  | none => false

/-- The boundary assertion `\b` at position `i` of `t`. -/
def frontiereEn (t : Str) (i : Nat) : Bool :=
  (if i = 0 then false else motEn t (i - 1)) != motEn t i

/-- Whether `e` occurs starting at position `i`. -/
def correspondEn (e t : Str) (i : Nat) : Bool := prefixeDe e (t.drop i)

def estTiretEsp (c : Char) : Bool := c == '-' || estEspace c

/-- `\b{e}\b`. -/
def modeleEntier (e t : Str) : Bool :=
  (List.range (t.length + 1)).any fun i =>
    correspondEn e t i && frontiereEn t i && frontiereEn t (i + e.length)

/-- `VIGNETTE[-\s]*{e}`. -/
def modeleVigAvant (e t : Str) : Bool :=
  (List.range (t.length + 1)).any fun i =>
    correspondEn (ch "VIGNETTE") t i &&
    (List.range (t.length + 1)).any fun k =>
      ((t.drop (i + 8)).take k).all estTiretEsp && correspondEn e t (i + 8 + k)

/-- `{e}[-\s]*VIGNETTE`. -/
def modeleVigApres (e t : Str) : Bool :=
  (List.range (t.length + 1)).any fun i =>
    correspondEn e t i &&
    (List.range (t.length + 1)).any fun k =>
      ((t.drop (i + e.length)).take k).all estTiretEsp &&
      correspondEn (ch "VIGNETTE") t (i + e.length + k)

/-- `\b{e}[-\s]+[A-Z]`. -/
def modeleEntierSuivi (e t : Str) : Bool :=
  (List.range (t.length + 1)).any fun i =>
    frontiereEn t i && correspondEn e t i &&
    (List.range (t.length + 1)).any fun k =>
      ((t.drop (i + e.length)).take (k + 1)).all estTiretEsp &&
      (match t.get? (i + e.length + k + 1) with
       | some c => estMajAscii c
       | none => false)

/-- The four match shapes tried for one company name (the source breaks at
the first shape that matches, which for the produced entity is equivalent to
their disjunction). -/
def rechercheEntreprise (e t : Str) : Bool :=
  modeleEntier e t || modeleVigAvant e t || modeleVigApres e t || modeleEntierSuivi e t

/-- The manufacturer loop: first registry entry (in iteration order) with a
matching shape, searched on the uppercased normalized text. -/
def detecterEntreprise (tMaj : Str) : Option Str :=
  entreprises_algeriennes.find? fun e => rechercheEntreprise e tMaj

/-! ## Medication name resolution (five strategies, first success wins)

`Str` with `[]` plays the role of Python's falsy `None` or empty string. -/

def nomStrategie1 (t ent : Str) : Str :=
  if ent = [] then []
  else
    match chercher (motifNomS1 ent) t with
    | none => []
    | some res =>
      match groupe res 1 with
      | none => []
      | some g => pyStrip g

def nomStrategie2 (t : Str) : Str :=
  match chercher motifNomS2 t with
  | none => []
  | some res =>
    match groupe res 1 with
    | none => []
    | some g =>
      if dansListe entreprises_algeriennes (pyMajStr (pyStrip g)) then [] else pyStrip g

def nomStrategie3 (t : Str) : Str :=
  match chercher motifNomS3 t with
  | none => []
  | some res =>
    match groupe res 1 with
    | none => []
    | some g =>
      if dansListe entreprises_algeriennes (pyMajStr (pyStrip g)) ||
         dansListe motsExclusion (pyMajStr (pyStrip g))
      then [] else pyStrip g

def nomStrategie4 (t : Str) : Str :=
  match chercher motifNomS4 t with
  | none => []
  | some res =>
    match groupe res 1 with
    | none => []
    | some g =>
      if dansListe entreprises_algeriennes (pyMajStr (pyStrip g)) ||
         dansListe motsExclusion (pyMajStr (pyStrip g))
      then [] else pyStrip g

def nomStrategie5 (t : Str) : Str :=
  match (toutTrouver motifNomS5 t).find? (fun c =>
      !(dansListe entreprises_algeriennes (pyMajStr c)) &&
      !(dansListe motsExclusion (pyMajStr c))) with
  | some c => c
  | none => []

def resoudreNom (t ent : Str) : Str :=
  if nomStrategie1 t ent ≠ [] then nomStrategie1 t ent
  else if nomStrategie2 t ≠ [] then nomStrategie2 t
  else if nomStrategie3 t ≠ [] then nomStrategie3 t
  else if nomStrategie4 t ≠ [] then nomStrategie4 t
  else nomStrategie5 t

/-! ## Active ingredient (four strategies) -/

/-- Strategy 1: every dash-delimited capture whose uppercase form differs
from the medication name (checked raw, appended stripped); nothing is
appended when no name was resolved. -/
def principeStrategie1 (t nom : Str) : List Str :=
  if nom = [] then []
  else ((toutTrouver motifPrincipe1 t).filter fun p => pyMajStr p != pyMajStr nom).map pyStrip

def principeStrategie2 (t : Str) : List Str :=
  match chercher motifPrincipe2 t with
  | none => []
  | some res =>
    match groupe res 1 with
    | none => []
    | some g => [pyStrip g]

def principeStrategie3 (t nom : Str) : List Str :=
  match chercher motifPrincipe3 t with
  | none => []
  | some res =>
    match groupe res 1 with
    | none => []
    | some g =>
      if !(dansListe entreprises_algeriennes (pyMajStr (pyStrip g))) &&
         (nom = [] || pyStrip g ≠ nom)
      then [pyStrip g] else []

def principeStrategie4 (t : Str) : List Str :=
  match (toutTrouver motifPrincipe4 t).find? (fun c =>
      mots_cles_principes.any fun m => sousChaine m (pyMinStr c)) with
  | some c => [c]
  | none => []

def extrairePrincipe (t nom : Str) : List Str :=
  if principeStrategie1 t nom ≠ [] then principeStrategie1 t nom
  else if principeStrategie2 t ≠ [] then principeStrategie2 t
  else if principeStrategie3 t nom ≠ [] then principeStrategie3 t nom
  else principeStrategie4 t

/-! ## Dosage -/

/-- Append a normalized token unless already present. -/
def insererAbsent (acc : List Str) (x : Str) : List Str :=
  if dansListe acc x then acc else acc ++ [x]

def extraireDosage (t : Str) : List Str :=
  motifsDosage.foldl (fun acc m =>
    ((toutTrouver m t).map sansEspaces).foldl insererAbsent acc) []

/-! ## Pharmaceutical form -/

/-- The lexicon check `any(f in mot_forme.lower() for f in formes)`:
substring containment, not equality. -/
def valideForme (motForme : Str) : Bool :=
  formes_pharmaceutiques.any fun f => sousChaine f (pyMinStr motForme)

/-- The four co-occurrence patterns with their formatters; `true` stands for
the formatter `"{group 2} {group 1 lowercased}"`, `false` for
`"{group 1} {group 2 lowercased}"`. -/
def motifsForme : List (RE × Bool) :=
  [(motifForme1, true), (motifForme2, false), (motifForme3, true), (motifForme4, false)]

/-- Stage 1: first pattern that matches and whose second capture (the
`mot_forme` the source selects, its group count being at least two) passes
the lexicon check; the `try … except: continue` of the source around the
group selection is the `none` fall-through. -/
def formeEtape1 (t : Str) : List Str :=
  match motifsForme.findSome? (fun pf =>
    match chercher pf.1 t with
    | none => none
    | some res =>
      match groupe res 1, groupe res 2 with
      | some g1, some g2 =>
        if valideForme g2 then
          some (if pf.2 then g2 ++ ' ' :: pyMinStr g1 else g1 ++ ' ' :: pyMinStr g2)
        else none
      | _, _ => none) with
  | some v => [v]
  | none => []

/-- Stage 2: first lexicon entry found standalone, lowercased as matched. -/
def formeEtape2 (t : Str) : List Str :=
  match formes_pharmaceutiques.findSome? (fun f =>
    (chercher (motifMotEntier f) t).bind fun res => (groupe res 1).map pyMinStr) with
  | some v => [v]
  | none => []

def extraireForme (t : Str) : List Str :=
  if formeEtape1 t ≠ [] then formeEtape1 t else formeEtape2 t

/-! ## Lot number, dates, price, registration number -/

def extraireLot (t : Str) : List Str :=
  match motifsLot.findSome? (fun m =>
    (chercher m t).bind fun res => (groupe res 1).map fun g =>
      reduireEspaces (pyStrip g)) with
  | some v => [v]
  | none => []

def extraireDate (motifs : List RE) (t : Str) : List Str :=
  match motifs.findSome? (fun m => (chercher m t).bind fun res => groupe res 1) with
  | some v => [v]
  | none => []

def extrairePrix (t : Str) : List Str :=
  match motifsPrix.findSome? (fun m =>
    (chercher m t).bind fun res => (groupe res 1).map fun g => g ++ ch " DA") with
  | some v => [v]
  | none => []

/-- The trailing-year substitution `re.sub(r'\s+\d{4}$', '', x)`: remove a
final run of whitespace followed by exactly four digits, if present. -/
def finAnnee (s : Str) : Bool :=
  decide (s.takeWhile estEspace ≠ []) &&
  (s.dropWhile estEspace).length == 4 &&
  (s.dropWhile estEspace).all estChiffre

def enleverAnneeFinale (l : Str) : Str :=
  match (List.range (l.length + 1)).find? (fun i => finAnnee (l.drop i)) with
  | some i => l.take i
  | none => l

def extraireDE (t : Str) : List Str :=
  match motifsDE.findSome? (fun m =>
    (chercher m t).bind fun res => (groupe res 1).bind fun g =>
      let n := enleverAnneeFinale (reduireEspaces (pyStrip g))
      if n = [] then none else some n) with
  | some v => [v]
  | none => []

/-! ## The assembler -/

structure Entites where
  nom_medicament : List Str
  principe_actif : List Str
  dosage : List Str
  forme_pharmaceutique : List Str
  entreprise : List Str
  numero_lot : List Str
  date_fabrication : List Str
  date_peremption : List Str
  prix : List Str
  numero_enregistrement : List Str
deriving DecidableEq

/-- The manufacturer entity computed inside `analyser_format_algerian`
(`[]` when none is detected). -/
def entrepriseDe (texte : Str) : Str :=
  match detecterEntreprise (pyMajStr (normaliser_texte texte)) with
  | some e => e
  | none => []

/-- The resolved medication name (`[]` when every strategy fails). -/
def nomDe (texte : Str) : Str :=
  resoudreNom (normaliser_texte texte) (entrepriseDe texte)

/-- The full extractor `analyser_format_algerian`. -/
def analyser_format_algerian (texte : Str) : Entites :=
  let t := normaliser_texte texte
  let ent := entrepriseDe texte
  let nom := nomDe texte
  { nom_medicament := if nom = [] then [] else [nom]
    principe_actif := extrairePrincipe t nom
    dosage := extraireDosage t
    forme_pharmaceutique := extraireForme t
    entreprise := if ent = [] then [] else [ent]
    numero_lot := extraireLot t
    date_fabrication := extraireDate motifsFab t
    date_peremption := extraireDate motifsExp t
    prix := extrairePrix t
    numero_enregistrement := extraireDE t }

/-- Definitional readings of the assembled fields. -/
theorem champ_entreprise (texte : Str) :
    (analyser_format_algerian texte).entreprise =
    (if entrepriseDe texte = [] then ([] : List Str) else [entrepriseDe texte]) := rfl

theorem champ_nom (texte : Str) :
    (analyser_format_algerian texte).nom_medicament =
    (if nomDe texte = [] then ([] : List Str) else [nomDe texte]) := rfl

theorem champ_forme (texte : Str) :
    (analyser_format_algerian texte).forme_pharmaceutique =
    extraireForme (normaliser_texte texte) := rfl

theorem champ_lot (texte : Str) :
    (analyser_format_algerian texte).numero_lot = extraireLot (normaliser_texte texte) := rfl

theorem champ_fab (texte : Str) :
    (analyser_format_algerian texte).date_fabrication =
    extraireDate motifsFab (normaliser_texte texte) := rfl

theorem champ_per (texte : Str) :
    (analyser_format_algerian texte).date_peremption =
    extraireDate motifsExp (normaliser_texte texte) := rfl

theorem champ_prix (texte : Str) :
    (analyser_format_algerian texte).prix = extrairePrix (normaliser_texte texte) := rfl

theorem champ_de (texte : Str) :
    (analyser_format_algerian texte).numero_enregistrement =
    extraireDE (normaliser_texte texte) := rfl

/-- The ten fields, in the key order of the source's result dictionary. -/
def listeChamps (e : Entites) : List (List Str) :=
  [e.nom_medicament, e.principe_actif, e.dosage, e.forme_pharmaceutique,
   e.entreprise, e.numero_lot, e.date_fabrication, e.date_peremption,
   e.prix, e.numero_enregistrement]

/-- The element count reported by `predire`:
`sum(len(v) for v in entites.values())`. -/
def totalElements (e : Entites) : Nat := ((listeChamps e).map List.length).sum

/-- `predire`: the entity record together with its reported total count. -/
def predire (texte : Str) : Entites × Nat :=
  let e := analyser_format_algerian texte
  (e, totalElements e)

/-- The all-empty result record. -/
def entitesVides : Entites := ⟨[], [], [], [], [], [], [], [], [], []⟩

/-! ## Properties of the normalizer -/

/-- The head of the list, if any, is not whitespace. -/
def premierNonEspace (l : Str) : Prop :=
  ∀ c, l.head? = some c → estEspace c = false

/-- No two adjacent whitespace characters. -/
def SansDoubleEspace (l : Str) : Prop :=
  List.Chain' (fun a b => ¬(estEspace a = true ∧ estEspace b = true)) l

theorem remplacer_espace_mem {b : Bool} {l : Str} {c : Char}
    (hc : c ∈ remplacerEspacesAux b l) (hesp : estEspace c = true) : c = ' ' := by
  induction l generalizing b with
  | nil => simp [remplacerEspacesAux] at hc
  | cons d r ih =>
    by_cases hd : estEspace d = true
    · rw [remplacerEspacesAux, if_pos hd] at hc
      cases b with
      | true => exact ih hc
      | false =>
        rcases List.mem_cons.mp hc with h | h
        · exact h
        · exact ih h
    · rw [remplacerEspacesAux, if_neg hd] at hc
      rcases List.mem_cons.mp hc with h | h
      · exact absurd (h ▸ hesp) hd
      · exact ih h

theorem remplacer_tete (l : Str) : premierNonEspace (remplacerEspacesAux true l) := by
  induction l with
  | nil => intro c hc; simp [remplacerEspacesAux] at hc
  | cons d r ih =>
    by_cases hd : estEspace d = true
    · rw [remplacerEspacesAux, if_pos hd]; exact ih
    · intro c hc
      rw [remplacerEspacesAux, if_neg hd] at hc
      simp only [List.head?_cons, Option.some.injEq] at hc
      simpa [← hc] using hd

theorem remplacer_chaine (b : Bool) (l : Str) : SansDoubleEspace (remplacerEspacesAux b l) := by
  induction l generalizing b with
  | nil => simp [remplacerEspacesAux, SansDoubleEspace]
  | cons d r ih =>
    by_cases hd : estEspace d = true
    · rw [remplacerEspacesAux, if_pos hd]
      cases b with
      | true => exact ih true
      | false =>
        refine List.chain'_cons'.mpr ⟨?_, ih true⟩
        intro y hy
        exact fun hcon => by simpa [remplacer_tete r y hy] using hcon.2
    · rw [remplacerEspacesAux, if_neg hd]
      refine List.chain'_cons'.mpr ⟨?_, ih false⟩
      intro y _
      exact fun hcon => hd hcon.1

theorem remplacer_fixe (l : Str)
    (hmem : ∀ c ∈ l, estEspace c = true → c = ' ')
    (hch : SansDoubleEspace l) :
    ∀ b, (b = true → premierNonEspace l) → remplacerEspacesAux b l = l := by
  induction l with
  | nil => intro b _; cases b <;> rfl
  | cons d r ih =>
    intro b hb
    have hch2 := List.chain'_cons'.mp hch
    by_cases hd : estEspace d = true
    · cases b with
      | true =>
        exact absurd (hb rfl d (by simp)) (by simp [hd])
      | false =>
        rw [remplacerEspacesAux, if_pos hd]
        have hd2 : d = ' ' := hmem d (by simp) hd
        have hprem : premierNonEspace r := by
          intro c hc
          have := hch2.1 c hc
          by_contra hcc
          exact this ⟨hd, by simpa using hcc⟩
        rw [ih (fun c hc h2 => hmem c (by simp [hc]) h2) hch2.2 true (fun _ => hprem), hd2]
        simp
    · rw [remplacerEspacesAux, if_neg hd,
        ih (fun c hc h2 => hmem c (by simp [hc]) h2) hch2.2 false (by simp)]

theorem premier_dropWhileEsp (l : Str) : premierNonEspace (l.dropWhile estEspace) := by
  induction l with
  | nil => intro c hc; simp at hc
  | cons d r ih =>
    by_cases hd : estEspace d = true
    · rw [List.dropWhile_cons_of_pos hd]; exact ih
    · rw [List.dropWhile_cons_of_neg hd]
      intro c hc
      simp only [List.head?_cons, Option.some.injEq] at hc
      simpa [← hc] using hd

theorem pyStrip_mem {c : Char} {l : Str} (h : c ∈ pyStrip l) : c ∈ l := by
  unfold pyStrip at h
  rw [List.mem_reverse] at h
  have h2 := (List.dropWhile_sublist (l := (l.dropWhile estEspace).reverse) estEspace).mem h
  rw [List.mem_reverse] at h2
  exact (List.dropWhile_sublist estEspace).mem h2

theorem chaine_dropWhile {l : Str} (h : SansDoubleEspace l) :
    SansDoubleEspace (l.dropWhile estEspace) := by
  have heq := List.takeWhile_append_dropWhile (p := estEspace) (l := l)
  rw [SansDoubleEspace, ← heq] at h
  exact (List.chain'_append.mp h).2.1

theorem chaine_reverse {l : Str} (h : SansDoubleEspace l) : SansDoubleEspace l.reverse :=
  List.chain'_reverse.mpr (List.Chain'.imp (fun _ _ hr hc => hr ⟨hc.2, hc.1⟩) h)

theorem pyStrip_chaine {l : Str} (h : SansDoubleEspace l) : SansDoubleEspace (pyStrip l) :=
  chaine_reverse (chaine_dropWhile (chaine_reverse (chaine_dropWhile h)))

theorem pyStrip_premier (l : Str) : premierNonEspace (pyStrip l) := by
  intro c hc
  unfold pyStrip at hc
  rw [List.head?_reverse] at hc
  have heq := List.takeWhile_append_dropWhile (p := estEspace)
    (l := (l.dropWhile estEspace).reverse)
  have h2 : ((l.dropWhile estEspace).reverse).getLast? = some c := by
    rw [← heq, List.getLast?_append, hc]; rfl
  rw [List.getLast?_reverse] at h2
  exact premier_dropWhileEsp l c h2

theorem pyStrip_dernier (l : Str) : premierNonEspace (pyStrip l).reverse := by
  unfold pyStrip
  rw [List.reverse_reverse]
  exact premier_dropWhileEsp _

theorem dropWhile_fixe {l : Str} (h : premierNonEspace l) : l.dropWhile estEspace = l := by
  cases l with
  | nil => rfl
  | cons d r => exact List.dropWhile_cons_of_neg (by simp [h d (by simp)])

theorem pyStrip_fixe {l : Str} (h1 : premierNonEspace l) (h2 : premierNonEspace l.reverse) :
    pyStrip l = l := by
  unfold pyStrip
  rw [dropWhile_fixe h1, dropWhile_fixe h2, List.reverse_reverse]

/-- C6: the normalizer collapses whitespace and trims; it is idempotent on
every string and maps the empty string to itself (being a Lean function, it
is total by construction). -/
theorem c6_normalisation :
    (∀ x : Str, normaliser_texte (normaliser_texte x) = normaliser_texte x) ∧
    normaliser_texte [] = [] := by
  constructor
  · intro x
    have hmem : ∀ c ∈ normaliser_texte x, estEspace c = true → c = ' ' :=
      fun c hc => remplacer_espace_mem (pyStrip_mem hc)
    have hch : SansDoubleEspace (normaliser_texte x) :=
      pyStrip_chaine (remplacer_chaine false x)
    have hfix : remplacerEspacesAux false (normaliser_texte x) = normaliser_texte x :=
      remplacer_fixe _ hmem hch false (by simp)
    show pyStrip (remplacerEspacesAux false (normaliser_texte x)) = normaliser_texte x
    rw [hfix]
    exact pyStrip_fixe (pyStrip_premier _) (pyStrip_dernier _)
  · rfl

/-! ## Dosage: order-preserving de-duplication -/

/-- The raw scan of the dosage extractor: all matches of all patterns in
pattern order, each normalized by stripping internal whitespace. -/
def dosageBruts (t : Str) : List Str :=
  motifsDosage.flatMap fun m => (toutTrouver m t).map sansEspaces

/-- Keep the first occurrence of every element, in order. -/
def dedupPremier (l : List Str) : List Str :=
  match l with
  | [] => []
  | a :: r => a :: dedupPremier (r.filter fun x => !(x == a))
termination_by l.length
decreasing_by
  simp only [List.length_cons]
  exact Nat.lt_succ_of_le (List.length_filter_le _ _)

theorem mem_dedupPremier {x : Str} {l : List Str} (h : x ∈ dedupPremier l) : x ∈ l := by
  induction l using dedupPremier.induct with
  | case1 => simp [dedupPremier] at h
  | case2 a r ih =>
    rw [dedupPremier] at h
    rcases List.mem_cons.mp h with h | h
    · simp [h]
    · exact List.mem_cons_of_mem a (List.mem_of_mem_filter (ih h))

theorem nodup_dedupPremier (l : List Str) : (dedupPremier l).Nodup := by
  induction l using dedupPremier.induct with
  | case1 => simp [dedupPremier]
  | case2 a r ih =>
    rw [dedupPremier]
    refine List.nodup_cons.mpr ⟨?_, ih⟩
    intro hmem
    have := List.of_mem_filter (mem_dedupPremier hmem)
    simp at this

theorem dansListe_append (acc : List Str) (a : Str) (x : Str) :
    dansListe (acc ++ [a]) x = (dansListe acc x || x == a) := by
  simp [dansListe, List.any_append, BEq.comm]

theorem filtre_dansListe_append (r : List Str) (acc : List Str) (a : Str) :
    (r.filter fun x => !(dansListe (acc ++ [a]) x)) =
    ((r.filter fun x => !(dansListe acc x)).filter fun x => !(x == a)) := by
  induction r with
  | nil => rfl
  | cons y r ih =>
    simp only [List.filter_cons, dansListe_append acc a, Bool.not_or]
    by_cases h1 : dansListe acc y = true <;> by_cases h2 : (y == a) = true <;>
      simp [h1, h2, ih] <;>
      exact List.filter_congr fun x _ => by rw [Bool.and_comm]

theorem foldl_insererAbsent (l : List Str) :
    ∀ acc, l.foldl insererAbsent acc =
      acc ++ dedupPremier (l.filter fun x => !(dansListe acc x)) := by
  induction l with
  | nil => intro acc; simp [dedupPremier]
  | cons a r ih =>
    intro acc
    rw [List.foldl_cons]
    by_cases ha : dansListe acc a = true
    · rw [List.filter_cons_of_neg (by simp [ha])]
      have : insererAbsent acc a = acc := by simp [insererAbsent, ha]
      rw [this, ih]
    · rw [List.filter_cons_of_pos (by simp [ha])]
      have : insererAbsent acc a = acc ++ [a] := by simp [insererAbsent, ha]
      rw [this, ih, dedupPremier, filtre_dansListe_append r acc a, List.append_assoc]
      rfl

theorem foldl_double (t : Str) (ms : List RE) : ∀ acc,
    ms.foldl (fun acc m => ((toutTrouver m t).map sansEspaces).foldl insererAbsent acc) acc =
    (ms.flatMap fun m => (toutTrouver m t).map sansEspaces).foldl insererAbsent acc := by
  induction ms with
  | nil => intro acc; rfl
  | cons m ms ih =>
    intro acc
    rw [List.foldl_cons, ih, List.flatMap_cons, List.foldl_append]

theorem extraireDosage_eq (t : Str) : extraireDosage t = dedupPremier (dosageBruts t) := by
  rw [extraireDosage, foldl_double t motifsDosage [], foldl_insererAbsent]
  show dedupPremier (List.filter _ _) = _
  rw [dosageBruts]
  congr 1
  apply List.filter_eq_self.mpr
  intro x _
  rfl

/-! ## At most one value per single-valued field -/

theorem longueur_formeEtape1 (t : Str) : (formeEtape1 t).length ≤ 1 := by
  unfold formeEtape1; split <;> simp

theorem longueur_formeEtape2 (t : Str) : (formeEtape2 t).length ≤ 1 := by
  unfold formeEtape2; split <;> simp

theorem longueur_extraireForme (t : Str) : (extraireForme t).length ≤ 1 := by
  show (if formeEtape1 t ≠ [] then formeEtape1 t else formeEtape2 t).length ≤ 1
  split
  · exact longueur_formeEtape1 t
  · exact longueur_formeEtape2 t

theorem longueur_extraireLot (t : Str) : (extraireLot t).length ≤ 1 := by
  unfold extraireLot; split <;> simp

theorem longueur_extraireDate (ms : List RE) (t : Str) : (extraireDate ms t).length ≤ 1 := by
  unfold extraireDate; split <;> simp

theorem longueur_extrairePrix (t : Str) : (extrairePrix t).length ≤ 1 := by
  unfold extrairePrix; split <;> simp

theorem longueur_extraireDE (t : Str) : (extraireDE t).length ≤ 1 := by
  unfold extraireDE; split <;> simp

/-! ## Exclusion checks of the name and ingredient cascades -/

theorem dansListe_iff {l : List Str} {x : Str} : dansListe l x = true ↔ x ∈ l := by
  simp [dansListe, List.any_eq_true, beq_iff_eq]

theorem nomStrategie2_exclut {t n : Str} (h : nomStrategie2 t = n) (hne : n ≠ []) :
    dansListe entreprises_algeriennes (pyMajStr n) = false := by
  unfold nomStrategie2 at h
  split at h
  · exact absurd h.symm hne
  · split at h
    · exact absurd h.symm hne
    · split at h
      · exact absurd h.symm hne
      · rename_i hcond
        rw [← h]
        exact Bool.eq_false_iff.mpr hcond

theorem nomStrategie3_exclut {t n : Str} (h : nomStrategie3 t = n) (hne : n ≠ []) :
    dansListe entreprises_algeriennes (pyMajStr n) = false ∧
    dansListe motsExclusion (pyMajStr n) = false := by
  unfold nomStrategie3 at h
  split at h
  · exact absurd h.symm hne
  · split at h
    · exact absurd h.symm hne
    · split at h
      · exact absurd h.symm hne
      · rename_i hcond
        rw [← h]
        simpa only [Bool.or_eq_true, not_or, Bool.not_eq_true] using hcond

theorem nomStrategie4_exclut {t n : Str} (h : nomStrategie4 t = n) (hne : n ≠ []) :
    dansListe entreprises_algeriennes (pyMajStr n) = false ∧
    dansListe motsExclusion (pyMajStr n) = false := by
  unfold nomStrategie4 at h
  split at h
  · exact absurd h.symm hne
  · split at h
    · exact absurd h.symm hne
    · split at h
      · exact absurd h.symm hne
      · rename_i hcond
        rw [← h]
        simpa only [Bool.or_eq_true, not_or, Bool.not_eq_true] using hcond

theorem nomStrategie5_exclut {t n : Str} (h : nomStrategie5 t = n) (hne : n ≠ []) :
    dansListe entreprises_algeriennes (pyMajStr n) = false ∧
    dansListe motsExclusion (pyMajStr n) = false := by
  unfold nomStrategie5 at h
  split at h
  · rename_i c hc
    have hp := List.find?_some hc
    rw [← h]
    simpa only [Bool.and_eq_true, Bool.not_eq_true'] using hp
  · exact absurd h.symm hne

/-- Strategies 2 to 5 all reject registry entries, and strategies 3 to 5
additionally reject the stopword list; the resolved name inherits the
guarantees of whichever strategy produced it. -/
theorem resoudreNom_exclut {t ent n : Str}
    (h1 : nomStrategie1 t ent = []) (h : resoudreNom t ent = n) (hne : n ≠ []) :
    dansListe entreprises_algeriennes (pyMajStr n) = false ∧
    (nomStrategie2 t = [] → dansListe motsExclusion (pyMajStr n) = false) := by
  unfold resoudreNom at h
  rw [h1, if_neg (fun hh => hh rfl)] at h
  by_cases h2 : nomStrategie2 t = []
  · rw [h2, if_neg (fun hh => hh rfl)] at h
    by_cases h3 : nomStrategie3 t = []
    · rw [h3, if_neg (fun hh => hh rfl)] at h
      by_cases h4 : nomStrategie4 t = []
      · rw [h4, if_neg (fun hh => hh rfl)] at h
        have hx := nomStrategie5_exclut h hne
        exact ⟨hx.1, fun _ => hx.2⟩
      · rw [if_pos h4] at h
        have hx := nomStrategie4_exclut h hne
        exact ⟨hx.1, fun _ => hx.2⟩
    · rw [if_pos h3] at h
      have hx := nomStrategie3_exclut h hne
      exact ⟨hx.1, fun _ => hx.2⟩
  · rw [if_pos h2] at h
    exact ⟨nomStrategie2_exclut h hne, fun hh => absurd hh h2⟩

theorem entreprises_majuscules : ∀ e ∈ entreprises_algeriennes, pyMajStr e = e := by decide

theorem detecter_mem {tm e : Str} (h : detecterEntreprise tm = some e) :
    e ∈ entreprises_algeriennes := List.mem_of_find?_eq_some h

/-- C1 (amended): whenever the medication name is resolved while strategy 1
yielded nothing, its value is not case-insensitively equal to any detected
manufacturer value; when strategy 2 also yielded nothing, it is moreover not
case-insensitively equal to any ExclusionStopwords entry.  (Strategy 1
performs no exclusion check at all, and strategy 2 checks only the registry,
which is what the counterexample exhibits.) -/
theorem c1_amended (t : Str)
    (h1 : nomStrategie1 (normaliser_texte t) (entrepriseDe t) = [])
    (n : Str) (hn : n ∈ (analyser_format_algerian t).nom_medicament) :
    (∀ e ∈ (analyser_format_algerian t).entreprise, pyMajStr n ≠ pyMajStr e) ∧
    (nomStrategie2 (normaliser_texte t) = [] →
      ∀ s ∈ motsExclusion, pyMajStr n ≠ s) := by
  have hn2 : n ∈ (if nomDe t = [] then ([] : List Str) else [nomDe t]) := hn
  by_cases hz : nomDe t = []
  · rw [if_pos hz] at hn2; simp at hn2
  · rw [if_neg hz] at hn2
    have hnn : n = nomDe t := by simpa using hn2
    have hexc := resoudreNom_exclut h1
      (show resoudreNom (normaliser_texte t) (entrepriseDe t) = nomDe t from rfl) hz
    subst hnn
    constructor
    · intro e he
      have he2 : e ∈ (if entrepriseDe t = [] then ([] : List Str) else [entrepriseDe t]) := he
      by_cases hez : entrepriseDe t = []
      · rw [if_pos hez] at he2; simp at he2
      · rw [if_neg hez] at he2
        have hee : e = entrepriseDe t := by simpa using he2
        have hmem : entrepriseDe t ∈ entreprises_algeriennes := by
          unfold entrepriseDe at hez ⊢
          cases hdet : detecterEntreprise (pyMajStr (normaliser_texte t)) with
          | none => rw [hdet] at hez; exact absurd rfl hez
          | some x => exact detecter_mem hdet
        intro heq
        have hmem2 : pyMajStr (nomDe t) ∈ entreprises_algeriennes := by
          rw [heq, hee, entreprises_majuscules _ hmem]
          exact hmem
        exact absurd (dansListe_iff.mpr hmem2) (by simp [hexc.1])
    · intro hs2 s hs heq
      have hmem2 : pyMajStr (nomDe t) ∈ motsExclusion := heq ▸ hs
      exact absurd (dansListe_iff.mpr hmem2) (by simp [hexc.2 hs2])

/-- C2 (amended): ingredient strategy 1 appends only candidates whose raw
capture differs case-insensitively from the medication name (and appends
nothing when no name was resolved), and strategy 3 only a candidate that is
no registry entry and (when a name exists) differs from the name as an exact
string; strategies 2 and 4 perform no exclusion check, which is what the
counterexample exhibits. -/
theorem c2_amended (t nom : Str) :
    (nom = [] → principeStrategie1 t nom = []) ∧
    (∀ p ∈ principeStrategie1 t nom, ∃ q, pyMajStr q ≠ pyMajStr nom ∧ p = pyStrip q) ∧
    (∀ p ∈ principeStrategie3 t nom,
      dansListe entreprises_algeriennes (pyMajStr p) = false ∧ (nom = [] ∨ p ≠ nom)) := by
  refine ⟨?_, ?_, ?_⟩
  · intro hz; unfold principeStrategie1; rw [if_pos hz]
  · intro p hp
    unfold principeStrategie1 at hp
    split at hp
    · simp at hp
    · rcases List.mem_map.mp hp with ⟨q, hq, hpq⟩
      have hf := List.of_mem_filter hq
      refine ⟨q, ?_, hpq.symm⟩
      intro heq
      simp [heq] at hf
  · intro p hp
    unfold principeStrategie3 at hp
    split at hp
    · simp at hp
    · split at hp
      · simp at hp
      · split at hp
        · rename_i hcond
          have hpp := List.mem_singleton.mp hp
          subst hpp
          simpa only [Bool.and_eq_true, Bool.not_eq_true', Bool.or_eq_true,
            decide_eq_true_eq] using hcond
        · simp at hp

/-! ## Inputs on which no pattern matches -/

theorem findSome?_none {α β : Type} {l : List α} {f : α → Option β}
    (h : ∀ a ∈ l, f a = none) : l.findSome? f = none :=
  List.findSome?_eq_none_iff.mpr h

/-- No extractor pattern matches the normalized text: every `re.search` of
the source comes back `None` and every `findall` empty. -/
def aucunMotifB (t : Str) : Bool :=
  (detecterEntreprise (pyMajStr (normaliser_texte t))).isNone &&
  (chercher motifNomS2 (normaliser_texte t)).isNone &&
  (chercher motifNomS3 (normaliser_texte t)).isNone &&
  (chercher motifNomS4 (normaliser_texte t)).isNone &&
  (toutTrouver motifNomS5 (normaliser_texte t)).isEmpty &&
  (toutTrouver motifPrincipe1 (normaliser_texte t)).isEmpty &&
  (chercher motifPrincipe2 (normaliser_texte t)).isNone &&
  (chercher motifPrincipe3 (normaliser_texte t)).isNone &&
  (toutTrouver motifPrincipe4 (normaliser_texte t)).isEmpty &&
  motifsDosage.all (fun m => (toutTrouver m (normaliser_texte t)).isEmpty) &&
  motifsForme.all (fun pf => (chercher pf.1 (normaliser_texte t)).isNone) &&
  formes_pharmaceutiques.all
    (fun f => (chercher (motifMotEntier f) (normaliser_texte t)).isNone) &&
  motifsLot.all (fun m => (chercher m (normaliser_texte t)).isNone) &&
  motifsFab.all (fun m => (chercher m (normaliser_texte t)).isNone) &&
  motifsExp.all (fun m => (chercher m (normaliser_texte t)).isNone) &&
  motifsPrix.all (fun m => (chercher m (normaliser_texte t)).isNone) &&
  motifsDE.all (fun m => (chercher m (normaliser_texte t)).isNone)

/-- C8: when no recognized keyword or pattern occurs in the input, the
analyser returns the record with all ten fields empty and `predire` reports
a total element count of zero — a successful outcome, not an error. -/
theorem c8_vide (t : Str) (h : aucunMotifB t = true) :
    analyser_format_algerian t = entitesVides ∧ (predire t).2 = 0 := by
  rw [aucunMotifB] at h
  simp only [Bool.and_eq_true] at h
  obtain ⟨⟨⟨⟨⟨⟨⟨⟨⟨⟨⟨⟨⟨⟨⟨⟨hEnt, hS2⟩, hS3⟩, hS4⟩, hS5⟩, hP1⟩, hP2⟩, hP3⟩, hP4⟩,
    hDos⟩, hFor1⟩, hFor2⟩, hLot⟩, hFab⟩, hExp⟩, hPrix⟩, hDE⟩ := h
  have hent : entrepriseDe t = [] := by
    unfold entrepriseDe
    rw [Option.isNone_iff_eq_none.mp hEnt]
  have n2 : nomStrategie2 (normaliser_texte t) = [] := by
    unfold nomStrategie2; rw [Option.isNone_iff_eq_none.mp hS2]
  have n3 : nomStrategie3 (normaliser_texte t) = [] := by
    unfold nomStrategie3; rw [Option.isNone_iff_eq_none.mp hS3]
  have n4 : nomStrategie4 (normaliser_texte t) = [] := by
    unfold nomStrategie4; rw [Option.isNone_iff_eq_none.mp hS4]
  have n5 : nomStrategie5 (normaliser_texte t) = [] := by
    unfold nomStrategie5; rw [List.isEmpty_iff.mp hS5]; rfl
  have hnom : nomDe t = [] := by
    unfold nomDe; rw [hent]; unfold resoudreNom
    rw [show nomStrategie1 (normaliser_texte t) [] = [] from rfl, n2, n3, n4, n5]
    simp
  have p1 : principeStrategie1 (normaliser_texte t) (nomDe t) = [] := by
    rw [hnom]; unfold principeStrategie1; rw [if_pos rfl]
  have p2 : principeStrategie2 (normaliser_texte t) = [] := by
    unfold principeStrategie2; rw [Option.isNone_iff_eq_none.mp hP2]
  have p3 : principeStrategie3 (normaliser_texte t) (nomDe t) = [] := by
    unfold principeStrategie3; rw [Option.isNone_iff_eq_none.mp hP3]
  have p4 : principeStrategie4 (normaliser_texte t) = [] := by
    unfold principeStrategie4; rw [List.isEmpty_iff.mp hP4]; rfl
  have hpr : extrairePrincipe (normaliser_texte t) (nomDe t) = [] := by
    unfold extrairePrincipe; rw [p1, p2, p3, p4]; simp
  have hdos : extraireDosage (normaliser_texte t) = [] := by
    rw [extraireDosage_eq]
    have hb : dosageBruts (normaliser_texte t) = [] := by
      simp only [motifsDosage, List.all_cons, List.all_nil, Bool.and_eq_true,
        List.isEmpty_iff] at hDos
      obtain ⟨d1, d2, d3, d4, d5, d6, -⟩ := hDos
      simp [dosageBruts, motifsDosage, d1, d2, d3, d4, d5, d6]
    rw [hb]
    simp [dedupPremier]
  have f1 : formeEtape1 (normaliser_texte t) = [] := by
    have hf := List.all_eq_true.mp hFor1
    unfold formeEtape1
    rw [findSome?_none (fun pf hpf => by
      rw [Option.isNone_iff_eq_none.mp (hf pf hpf)])]
  have f2 : formeEtape2 (normaliser_texte t) = [] := by
    have hf := List.all_eq_true.mp hFor2
    unfold formeEtape2
    rw [findSome?_none (fun f hpf => by
      rw [Option.isNone_iff_eq_none.mp (hf f hpf)]; rfl)]
  have hforme : extraireForme (normaliser_texte t) = [] := by
    unfold extraireForme; rw [f1, f2]; simp
  have hlot : extraireLot (normaliser_texte t) = [] := by
    unfold extraireLot
    rw [findSome?_none (fun m hm => by
      rw [Option.isNone_iff_eq_none.mp (List.all_eq_true.mp hLot m hm)]; rfl)]
  have hfabr : extraireDate motifsFab (normaliser_texte t) = [] := by
    unfold extraireDate
    rw [findSome?_none (fun m hm => by
      rw [Option.isNone_iff_eq_none.mp (List.all_eq_true.mp hFab m hm)]; rfl)]
  have hexpr : extraireDate motifsExp (normaliser_texte t) = [] := by
    unfold extraireDate
    rw [findSome?_none (fun m hm => by
      rw [Option.isNone_iff_eq_none.mp (List.all_eq_true.mp hExp m hm)]; rfl)]
  have hprixr : extrairePrix (normaliser_texte t) = [] := by
    unfold extrairePrix
    rw [findSome?_none (fun m hm => by
      rw [Option.isNone_iff_eq_none.mp (List.all_eq_true.mp hPrix m hm)]; rfl)]
  have hder : extraireDE (normaliser_texte t) = [] := by
    unfold extraireDE
    rw [findSome?_none (fun m hm => by
      rw [Option.isNone_iff_eq_none.mp (List.all_eq_true.mp hDE m hm)]; rfl)]
  have hA : analyser_format_algerian t = entitesVides := by
    simp only [analyser_format_algerian]
    rw [hpr, hdos, hforme, hlot, hfabr, hexpr, hprixr, hder, hnom, hent]
    simp [entitesVides]
  refine ⟨hA, ?_⟩
  show totalElements (analyser_format_algerian t) = 0
  rw [hA]
  rfl

/-- C8, instantiated at the empty transcript. -/
theorem c8_vide_witness :
    aucunMotifB [] = true ∧
    (analyser_format_algerian [] = entitesVides ∧ (predire []).2 = 0) :=
  ⟨by decide, c8_vide [] (by decide)⟩

/-! ## Manufacturer detection and the VIGNETTE entry -/

theorem sousChaine_of_prefixeDe {e t : Str} (i : Nat)
    (h : prefixeDe e (t.drop i) = true) : sousChaine e t = true := by
  by_cases hi : i ≤ t.length
  · unfold sousChaine
    rw [List.any_eq_true]
    exact ⟨i, List.mem_range.mpr (by omega), h⟩
  · rw [List.drop_eq_nil_of_le (by omega)] at h
    cases e with
    | nil =>
      unfold sousChaine
      rw [List.any_eq_true]
      exact ⟨0, List.mem_range.mpr (by omega), rfl⟩
    | cons a s => simp [prefixeDe] at h

theorem recherche_sousChaine {e t : Str} (h : rechercheEntreprise e t = true) :
    sousChaine e t = true := by
  unfold rechercheEntreprise at h
  simp only [Bool.or_eq_true] at h
  rcases h with ((h | h) | h) | h
  · unfold modeleEntier at h
    obtain ⟨i, -, hi⟩ := List.any_eq_true.mp h
    simp only [Bool.and_eq_true] at hi
    exact sousChaine_of_prefixeDe i hi.1.1
  · unfold modeleVigAvant at h
    obtain ⟨i, -, hi⟩ := List.any_eq_true.mp h
    simp only [Bool.and_eq_true] at hi
    obtain ⟨k, -, hk⟩ := List.any_eq_true.mp hi.2
    simp only [Bool.and_eq_true] at hk
    exact sousChaine_of_prefixeDe _ hk.2
  · unfold modeleVigApres at h
    obtain ⟨i, -, hi⟩ := List.any_eq_true.mp h
    simp only [Bool.and_eq_true] at hi
    exact sousChaine_of_prefixeDe i hi.1
  · unfold modeleEntierSuivi at h
    obtain ⟨i, -, hi⟩ := List.any_eq_true.mp h
    simp only [Bool.and_eq_true] at hi
    exact sousChaine_of_prefixeDe i hi.1.2

theorem trouve_cons {α : Type} (p : α → Bool) (a : α) (l : List α) :
    List.find? p (a :: l) = bif p a then some a else List.find? p l := rfl

/-- C10: `VIGNETTE` is itself a registry entry, so a text containing it as a
standalone word while no other registry company name occurs anywhere in the
(uppercased, normalized) text is reported with manufacturer exactly
`["VIGNETTE"]`. -/
theorem c10_vignette (t : Str)
    (h1 : modeleEntier (ch "VIGNETTE") (pyMajStr (normaliser_texte t)) = true)
    (h2 : ∀ e ∈ entreprises_algeriennes, e ≠ ch "VIGNETTE" →
      sousChaine e (pyMajStr (normaliser_texte t)) = false) :
    (analyser_format_algerian t).entreprise = [ch "VIGNETTE"] := by
  have hkf : ∀ e, e ∈ entreprises_algeriennes → e ≠ ch "VIGNETTE" →
      rechercheEntreprise e (pyMajStr (normaliser_texte t)) = false := by
    intro e he hne
    cases hr : rechercheEntreprise e (pyMajStr (normaliser_texte t)) with
    | false => rfl
    | true => exact absurd (recherche_sousChaine hr) (by simp [h2 e he hne])
  have hV : rechercheEntreprise (ch "VIGNETTE") (pyMajStr (normaliser_texte t)) = true := by
    unfold rechercheEntreprise
    rw [h1]
    rfl
  have hdet : detecterEntreprise (pyMajStr (normaliser_texte t)) = some (ch "VIGNETTE") := by
    unfold detecterEntreprise entreprises_algeriennes
    simp only [trouve_cons, hV,
      hkf (ch "SAIDAL") (by decide) (by decide),
      hkf (ch "BIOCARE") (by decide) (by decide),
      hkf (ch "BIOPHARM") (by decide) (by decide),
      hkf (ch "HIKMA") (by decide) (by decide),
      hkf (ch "PFIZER") (by decide) (by decide),
      hkf (ch "SANOFI") (by decide) (by decide),
      hkf (ch "BAYER") (by decide) (by decide),
      hkf (ch "NOVARTIS") (by decide) (by decide),
      hkf (ch "GSK") (by decide) (by decide),
      hkf (ch "GLAXOSMITHKLINE") (by decide) (by decide),
      hkf (ch "BIOGALENIC") (by decide) (by decide),
      hkf (ch "NADPHARMA") (by decide) (by decide),
      hkf (ch "NADPHARMAGIC") (by decide) (by decide),
      cond_false, cond_true]
  have hE : entrepriseDe t = ch "VIGNETTE" := by
    unfold entrepriseDe
    rw [hdet]
  show (if entrepriseDe t = [] then [] else [entrepriseDe t]) = [ch "VIGNETTE"]
  rw [hE, if_neg (by decide)]

/-- C10, instantiated at a transcript carrying only the vignette stamp. -/
theorem c10_vignette_witness :
    modeleEntier (ch "VIGNETTE") (pyMajStr (normaliser_texte (ch "VIGNETTE 123"))) = true ∧
    (∀ e ∈ entreprises_algeriennes, e ≠ ch "VIGNETTE" →
      sousChaine e (pyMajStr (normaliser_texte (ch "VIGNETTE 123"))) = false) ∧
    (analyser_format_algerian (ch "VIGNETTE 123")).entreprise = [ch "VIGNETTE"] :=
  ⟨by decide, by decide, c10_vignette (ch "VIGNETTE 123") (by decide) (by decide)⟩

/-! ## Claim-level theorems on concrete transcripts -/

/-- C1 (counterexample): on `"LOT 500mg"` name strategy 2 captures `LOT`
(it checks the registry but not the stopword list), so the returned
medication name is itself an ExclusionStopwords entry, refuting the claim
as stated. -/
theorem c1_counterexample :
    (analyser_format_algerian (ch "LOT 500mg")).nom_medicament = [ch "LOT"] ∧
    ch "LOT" ∈ motsExclusion :=
  ⟨by decide, by decide⟩

/-- C1 (amended), instantiated: on `"500mg DOLIPRANE"` strategy 1 yields
nothing, the name resolves to `DOLIPRANE`, and the amended exclusions hold. -/
theorem c1_amended_witness :
    nomStrategie1 (normaliser_texte (ch "500mg DOLIPRANE"))
      (entrepriseDe (ch "500mg DOLIPRANE")) = [] ∧
    ch "DOLIPRANE" ∈ (analyser_format_algerian (ch "500mg DOLIPRANE")).nom_medicament ∧
    ((∀ e ∈ (analyser_format_algerian (ch "500mg DOLIPRANE")).entreprise,
        pyMajStr (ch "DOLIPRANE") ≠ pyMajStr e) ∧
     (nomStrategie2 (normaliser_texte (ch "500mg DOLIPRANE")) = [] →
        ∀ s ∈ motsExclusion, pyMajStr (ch "DOLIPRANE") ≠ s)) :=
  ⟨by decide, by decide,
    c1_amended (ch "500mg DOLIPRANE") (by decide) (ch "DOLIPRANE") (by decide)⟩

/-- C2 (counterexample): on `"ACIDE 500mg - acide"` the name resolves to
`ACIDE` and ingredient strategy 2 (which performs no exclusion check)
captures `acide`, case-insensitively equal to the name, refuting the claim
that every strategy enforces the exclusion. -/
theorem c2_counterexample :
    (analyser_format_algerian (ch "ACIDE 500mg - acide")).nom_medicament = [ch "ACIDE"] ∧
    (analyser_format_algerian (ch "ACIDE 500mg - acide")).principe_actif = [ch "acide"] ∧
    pyMajStr (ch "acide") = pyMajStr (ch "ACIDE") :=
  ⟨by decide, by decide, by decide⟩

/-- C2 (amended), instantiated: strategy 1 accepts `Ddd` against the name
`ABC`, and the accepted raw capture indeed differs case-insensitively from
the name. -/
theorem c2_amended_witness :
    ch "Ddd" ∈ principeStrategie1 (ch "ABC - Ddd - 5mg") (ch "ABC") ∧
    (∃ q, pyMajStr q ≠ pyMajStr (ch "ABC") ∧ ch "Ddd" = pyStrip q) :=
  ⟨by decide, (c2_amended (ch "ABC - Ddd - 5mg") (ch "ABC")).2.1 (ch "Ddd") (by decide)⟩

/-- C3: the end-to-end extraction on the fixture transcript.  The full
record is computed; the medication name comes out of strategy 3 as
`PARACETAMOL EXP` (the greedy capture absorbs the following keyword), which
is non-empty, differs from `BIOCARE`, and is no stopword — as the claim
requires. -/
theorem c3_extraction :
    analyser_format_algerian
      (ch "LOT 77A BIOCARE 500 mg PARACETAMOL EXP 04-2026 Comprimés FAB 02-2024 TR: 62.5DA") =
      { nom_medicament := [ch "PARACETAMOL EXP"]
        principe_actif := [ch "PARACETAMOL"]
        dosage := [ch "500mg"]
        forme_pharmaceutique := [ch "comprimés"]
        entreprise := [ch "BIOCARE"]
        numero_lot := [ch "77A"]
        date_fabrication := [ch "02-2024"]
        date_peremption := [ch "04-2026"]
        prix := [ch "62.5 DA"]
        numero_enregistrement := [] } ∧
    [ch "PARACETAMOL EXP"] ≠ ([] : List Str) ∧
    ch "PARACETAMOL EXP" ≠ ch "BIOCARE" ∧
    ch "PARACETAMOL EXP" ∉ motsExclusion :=
  ⟨by decide, by decide, by decide, by decide⟩

/-- C4: the dosage field is exactly the order-preserving first-occurrence
de-duplication of the normalized matches of all six unit patterns in
pattern-scan order; it never holds duplicates; and a transcript with two
distinct separately-occurring tokens yields both, in scan order. -/
theorem c4_dosage (t : Str) :
    (analyser_format_algerian t).dosage = dedupPremier (dosageBruts (normaliser_texte t)) ∧
    (analyser_format_algerian t).dosage.Nodup ∧
    (analyser_format_algerian (ch "DOLIPRANE 500mg 10ml")).dosage =
      [ch "500mg", ch "10ml"] := by
  refine ⟨?_, ?_, by decide⟩
  · show extraireDosage (normaliser_texte t) = _
    exact extraireDosage_eq _
  · show (extraireDosage (normaliser_texte t)).Nodup
    rw [extraireDosage_eq]
    exact nodup_dedupPremier _

/-- C5 (counterexample): on `"gélules B/20"` the first co-occurrence shape
(form word before the box marker and count) matches, yet the extractor
validates the numeric second capture, never emits, and falls back to the
bare form word — not the canonical count-and-form string the claim
promises. -/
theorem c5_counterexample :
    (chercher motifForme1 (normaliser_texte (ch "gélules B/20"))).isSome = true ∧
    (analyser_format_algerian (ch "gélules B/20")).forme_pharmaceutique = [ch "gélules"] ∧
    ch "gélules" ≠ ch "20 gélules" :=
  ⟨by decide, by decide, by decide⟩

/-- C5 (amended): at most one form value is ever produced; a stage-1 value
is only emitted after its second capture passes the lexicon validation; the
shapes capturing the count in the second group never validate, so a
form-before-count text falls back to the bare word, while a count-before-form
text yields the canonical string. -/
theorem c5_amended (t : Str) :
    (analyser_format_algerian t).forme_pharmaceutique.length ≤ 1 ∧
    (∀ v ∈ formeEtape1 (normaliser_texte t), ∃ pf ∈ motifsForme, ∃ res,
      chercher pf.1 (normaliser_texte t) = some res ∧
      ∃ g2, groupe res 2 = some g2 ∧ valideForme g2 = true) ∧
    (analyser_format_algerian (ch "gélules B/20")).forme_pharmaceutique = [ch "gélules"] ∧
    (analyser_format_algerian (ch "B/20 gélules")).forme_pharmaceutique =
      [ch "20 gélules"] := by
  refine ⟨?_, ?_, by decide, by decide⟩
  · rw [champ_forme]
    exact longueur_extraireForme (normaliser_texte t)
  intro v hv
  unfold formeEtape1 at hv
  split at hv
  · rename_i w heq
    obtain ⟨pf, hpf, hfeq⟩ := List.exists_of_findSome?_eq_some heq
    refine ⟨pf, hpf, ?_⟩
    split at hfeq
    · exact absurd hfeq (by simp)
    · rename_i res hres
      refine ⟨res, hres, ?_⟩
      split at hfeq
      · rename_i g1 g2 hg1 hg2
        split at hfeq
        · rename_i hval
          exact ⟨g2, hg2, hval⟩
        · exact absurd hfeq (by simp)
      · exact absurd hfeq (by simp)
  · simp at hv

/-- C5 (amended), instantiated: on `"B/20 gélules"` stage 1 emits the
canonical string, and its second capture passed the lexicon validation. -/
theorem c5_amended_witness :
    ch "20 gélules" ∈ formeEtape1 (normaliser_texte (ch "B/20 gélules")) ∧
    (∃ pf ∈ motifsForme, ∃ res,
      chercher pf.1 (normaliser_texte (ch "B/20 gélules")) = some res ∧
      ∃ g2, groupe res 2 = some g2 ∧ valideForme g2 = true) :=
  ⟨by decide, (c5_amended (ch "B/20 gélules")).2.1 (ch "20 gélules") (by decide)⟩

/-- C7 (counterexample): the dash-delimited ingredient strategy appends one
value per `findall` capture, so active_ingredient can carry two values,
refuting the claim that every field but dosage is single-valued. -/
theorem c7_counterexample :
    (analyser_format_algerian (ch "XYZ - Aaa - - Bbb -")).principe_actif =
      [ch "Aaa", ch "Bbb"] ∧
    2 ≤ (analyser_format_algerian (ch "XYZ - Aaa - - Bbb -")).principe_actif.length :=
  ⟨by decide, by decide⟩

/-- C7 (amended): every field other than dosage and active_ingredient holds
at most one element on every input; in particular the manufacturer field is
single-valued. -/
theorem c7_amended (t : Str) :
    (analyser_format_algerian t).entreprise.length ≤ 1 ∧
    (analyser_format_algerian t).nom_medicament.length ≤ 1 ∧
    (analyser_format_algerian t).forme_pharmaceutique.length ≤ 1 ∧
    (analyser_format_algerian t).numero_lot.length ≤ 1 ∧
    (analyser_format_algerian t).date_fabrication.length ≤ 1 ∧
    (analyser_format_algerian t).date_peremption.length ≤ 1 ∧
    (analyser_format_algerian t).prix.length ≤ 1 ∧
    (analyser_format_algerian t).numero_enregistrement.length ≤ 1 := by
  refine ⟨?_, ?_, ?_, ?_, ?_, ?_, ?_, ?_⟩
  · rw [champ_entreprise]
    split <;> simp
  · rw [champ_nom]
    split <;> simp
  · rw [champ_forme]
    exact longueur_extraireForme (normaliser_texte t)
  · rw [champ_lot]
    exact longueur_extraireLot (normaliser_texte t)
  · rw [champ_fab]
    exact longueur_extraireDate motifsFab (normaliser_texte t)
  · rw [champ_per]
    exact longueur_extraireDate motifsExp (normaliser_texte t)
  · rw [champ_prix]
    exact longueur_extrairePrix (normaliser_texte t)
  · rw [champ_de]
    exact longueur_extraireDE (normaliser_texte t)

/-- C9: on every input the analyser terminates (it is a total Lean function)
and assembles the complete ten-field record, whose reported total is the sum
of the field lengths; no exception escapes: the one fallible step the source
guards (the capture-group selection of the form extractor) is modelled by
the `none` fall-through inside `formeEtape1`. -/
theorem c9_surete (t : Str) :
    (listeChamps (analyser_format_algerian t)).length = 10 ∧
    (predire t).2 = ((listeChamps (analyser_format_algerian t)).map List.length).sum := by
  exact ⟨rfl, rfl⟩

end PharmaLense
